import Mathlib

/-!
Verification of the vllm-finetune-middleware orchestration core.

The definitions below are a shallow embedding of the Python source:
* `STATUS_MAP`, `statusMapLookup` — routers/fine_tuning.py lines 49-56
  (a Python dict; subscripting a missing key raises KeyError, modelled
  as `Option.none`).
* `JobRecord`, `Store`, `retrieve_job`, `cancel_job` — the in-memory
  `JOBS` registry and the request handlers of routers/fine_tuning.py.
* `daemonIter`, `artifactStage` — one polling-loop iteration and the
  post-success artifact stage of `job_daemon`.
* `forward_to_app`, `resolve_route` — middlewares.py.
External effects (the remote runner's HTTP responses, tempdir
allocation, S3 download, engine load) are passed in as explicit data.
-/

namespace VFM

/-- The remote-runner status dictionary, exactly the keys of the source
`STATUS_MAP` dict (routers/fine_tuning.py lines 49-56). -/
def STATUS_MAP : List (String × String) :=
  [("IN_QUEUE", "queued"),
   ("COMPLETED", "succeeded"),
   ("IN_PROGRESS", "running"),
   ("CANCELLED", "cancelled"),
   ("FAILED", "failed"),
   ("TIMED_OUT", "failed")]

/-- Python `STATUS_MAP[s]`: `some` of the mapped value, `none` when the
subscript would raise `KeyError`. -/
def statusMapLookup (s : String) : Option String :=
  (STATUS_MAP.find? (fun p => p.1 == s)).map Prod.snd

/-- `JobError` pydantic model. -/
structure JobError where
  code : String
  message : String
deriving DecidableEq, Repr

/-- The mutable part of a `JobRead` record stored in `JOBS`. -/
structure JobRecord where
  model : String
  training_file : String
  suffix : Option String
  status : String
  created_at : Nat
  finished_at : Option Nat
  fine_tuned_model : Option String
  error : Option JobError
deriving DecidableEq, Repr

/-- `fastapi.HTTPException(status_code, detail)`. -/
structure HTTPException where
  status_code : Nat
  detail : String
deriving DecidableEq, Repr

/-- A Python exception escaping `retrieve_job`: either an
`HTTPException` or the `KeyError` from `STATUS_MAP[...]`. -/
inductive PyError where
  | http (e : HTTPException)
  | keyError (key : String)
deriving DecidableEq, Repr

/-- The in-memory `JOBS` dict, as an association list. -/
abbrev Store := List (String × JobRecord)

/-- `job_id in JOBS` / `JOBS[job_id]` read access. -/
def Store.lookup (s : Store) (id : String) : Option JobRecord :=
  ((s : List (String × JobRecord)).find? (fun p => p.1 == id)).map Prod.snd

/-- `JOBS.pop(job_id, None)`. -/
def Store.pop (s : Store) (id : String) : Store :=
  (s : List (String × JobRecord)).filter (fun p => !(p.1 == id))

/-- In-place mutation of the stored record (`job_read.status = ...` etc.
mutates the object held in the dict). -/
def Store.set (s : Store) (id : String) (j : JobRecord) : Store :=
  (s : List (String × JobRecord)).map (fun p => if p.1 == id then (p.1, j) else p)

/-- The remote runner's answer to `GET {base}/status/{id}`. -/
inductive RemoteStatusResp where
  | notFound
  | httpError (code : Nat) (text : String)
  | ok (status : String) (error : Option String)
deriving DecidableEq, Repr

/-- The handler `retrieve_job` (routers/fine_tuning.py lines 166-197):
404 when the id is not in `JOBS`; on a remote 404 pop the record and
raise 404; on another remote error propagate it; otherwise map the
remote status through `STATUS_MAP` (KeyError if absent), stamp
`finished_at` whenever the mapped status is terminal, and record a
structured error when the remote body carries a truthy error field.
Returns the handler outcome together with the updated store. -/
def retrieve_job (store : Store) (jobId : String) (resp : RemoteStatusResp)
    (now : Nat) : Except PyError JobRecord × Store :=
  match Store.lookup store jobId with
  | Option.none => (Except.error (PyError.http ⟨404, "Job not found"⟩), store)
  | Option.some j =>
    match resp with
    | RemoteStatusResp.notFound =>
        (Except.error (PyError.http ⟨404, "Job not found"⟩), Store.pop store jobId)
    | RemoteStatusResp.httpError code text =>
        (Except.error (PyError.http ⟨code, text⟩), store)
    | RemoteStatusResp.ok remoteStatus remoteError =>
      match statusMapLookup remoteStatus with
      | Option.none => (Except.error (PyError.keyError remoteStatus), store)
      | Option.some mapped =>
        let j1 := { j with status := mapped }
        let j2 :=
          if mapped = "succeeded" ∨ mapped = "failed" ∨ mapped = "cancelled" then
            { j1 with finished_at := Option.some now }
          else j1
        let j3 :=
          match remoteError with
          | Option.some msg =>
              if msg = "" then j2
              else { j2 with error := Option.some ⟨"error", msg⟩ }
          | Option.none => j2
        (Except.ok j3, Store.set store jobId j3)

/-- State of one `job_daemon` task between loop iterations: the local
variable `job` (`none` while still unbound) and the shared `JOBS` store. -/
structure DaemonState where
  lastJob : Option JobRecord
  store : Store
deriving DecidableEq, Repr

/-- What one iteration of the `while True` polling loop does next. -/
inductive DaemonOutcome where
  | continues (s : DaemonState)
  | exited (store : Store)
  | crashed (e : String) (store : Store)
  | artifact (s : DaemonState)
deriving DecidableEq, Repr

/-- The status checks after the `try` block of `job_daemon`
(routers/fine_tuning.py lines 92-96), applied to whatever value the
local variable `job` holds. -/
def daemonCheck (j : JobRecord) (last : Option JobRecord) (store : Store) :
    DaemonOutcome :=
  if j.status = "failed" ∨ j.status = "cancelled" then DaemonOutcome.exited store
  else if j.status = "succeeded" then DaemonOutcome.artifact ⟨last, store⟩
  else DaemonOutcome.continues ⟨last, store⟩

/-- One iteration of the `job_daemon` polling loop
(routers/fine_tuning.py lines 81-96): await `retrieve_job`; the
`except HTTPException` clause returns only on a 404 (after popping the
record), so any other `HTTPException` falls through to the status
checks with the previous value of the local variable `job` — a
`NameError` on the first iteration. A `KeyError` from the status map is
not an `HTTPException` and crashes the task. -/
def daemonIter (jobId : String) (resp : RemoteStatusResp) (now : Nat)
    (s : DaemonState) : DaemonOutcome :=
  match retrieve_job s.store jobId resp now with
  | (Except.error (PyError.http e), store1) =>
    if e.status_code = 404 then DaemonOutcome.exited (Store.pop store1 jobId)
    else
      match s.lastJob with
      | Option.none => DaemonOutcome.crashed "NameError: job" store1
      | Option.some j => daemonCheck j s.lastJob store1
  | (Except.error (PyError.keyError k), store1) =>
      DaemonOutcome.crashed ("KeyError: " ++ k) store1
  | (Except.ok j, store1) => daemonCheck j (Option.some j) store1

/-- Python `str.replace(src, dst)` for one-character patterns. -/
def pyReplaceChar (src dst : Char) (s : List Char) : List Char :=
  s.map (fun c => if c = src then dst else c)

/-- `os.path.basename`: the characters after the last path separator. -/
def basename (s : List Char) : List Char :=
  s.foldl (fun acc c => if c = '/' then [] else acc ++ [c]) []

/-- The model identifier the daemon derives from the staging directory
(routers/fine_tuning.py line 112): basename with every `.` rewritten
to `:`. -/
def derive_model_name (tempdir : List Char) : List Char :=
  pyReplaceChar '.' ':' (basename tempdir)

/-- The directory name `push_model_to_hub` reconstructs from a model id
(routers/models.py line 36): every `:` rewritten back to `.`. -/
def adapter_dir_name (modelId : List Char) : List Char :=
  pyReplaceChar ':' '.' modelId

/-- Outcomes of the external effects inside the artifact `try` block:
`tempfile.mkdtemp` (returning the staging path), the S3 directory
download, and the engine's `load_lora_adapter` response. -/
structure ArtifactEnv where
  mkdtempResult : Except String (List Char)
  downloadResult : Except String Unit
  loadResult : Except String Unit
deriving Repr

/-- The artifact-handling stage of `job_daemon`
(routers/fine_tuning.py lines 102-123): everything runs inside one
`try ... except Exception`, so the function is total on the store.
`job.fine_tuned_model` is assigned after a successful download and
before the `load_lora_adapter` call, so a failing load leaves the
assignment in place; any earlier failure leaves the store unchanged. -/
def artifactStage (env : ArtifactEnv) (store : Store) (jobId : String) : Store :=
  match Store.lookup store jobId with
  | Option.none => store
  | Option.some job =>
    match env.mkdtempResult with
    | Except.error _ => store
    | Except.ok tempdir =>
      match env.downloadResult with
      | Except.error _ => store
      | Except.ok _ =>
        let model_name := String.mk (derive_model_name tempdir)
        let store1 := Store.set store jobId
          { job with fine_tuned_model := Option.some model_name }
        match env.loadResult with
        | Except.error _ => store1
        | Except.ok _ => store1

/-- The remote runner's answer to `POST {base}/cancel/{id}`. -/
inductive RemoteCancelResp where
  | ok
  | httpError (code : Nat) (text : String)
deriving DecidableEq, Repr

/-- The handler `cancel_job` (routers/fine_tuning.py lines 200-217). -/
def cancel_job (store : Store) (jobId : String) (resp : RemoteCancelResp) :
    Except HTTPException JobRecord :=
  match Store.lookup store jobId with
  | Option.none => Except.error ⟨404, "Job not found"⟩
  | Option.some j =>
    match resp with
    | RemoteCancelResp.httpError code text => Except.error ⟨code, text⟩
    | RemoteCancelResp.ok => Except.ok j

/-- An ASGI message sent by the embedded app: `http.response.start`
with status and headers, or `http.response.body` with a byte chunk. -/
inductive ASGIMessage where
  | start (status : Nat) (headers : List (String × String))
  | body (chunk : List Nat)
deriving DecidableEq, Repr

/-- Did the embedded app emit an `http.response.start` event? This is
the `response_started` flag set inside `send` (middlewares.py 67-71). -/
def responseStarted (msgs : List ASGIMessage) : Bool :=
  msgs.any (fun m => match m with
    | ASGIMessage.start _ _ => true
    | ASGIMessage.body _ => false)

/-- The buffered unary response built by `_forward_to_app`. -/
structure BufferedResponse where
  status_code : Nat
  headers : List (String × String)
  body : List Nat
deriving DecidableEq, Repr

/-- The replay loop of `_forward_to_app` (middlewares.py lines 77-89):
start messages overwrite the status code and append their headers, body
messages concatenate their chunks. -/
def buildResponse (msgs : List ASGIMessage) : BufferedResponse :=
  msgs.foldl
    (fun r m =>
      match m with
      | ASGIMessage.start st hs =>
          { r with status_code := st, headers := r.headers ++ hs }
      | ASGIMessage.body b => { r with body := r.body ++ b })
    ⟨200, [], []⟩

/-- `_forward_to_app` (middlewares.py lines 59-89): run the embedded
app (its emitted event queue is the argument), `assert response_started`
— an `AssertionError` when no response-start event was queued — then
replay the queue into one buffered response. -/
def forward_to_app (msgs : List ASGIMessage) : Except String BufferedResponse :=
  if responseStarted msgs then Except.ok (buildResponse msgs)
  else Except.error "Response was not started"

/-- `starlette.routing.Match`: no match, path-only match, or full
path+method match. -/
inductive MatchRes where
  | noMatch
  | pathOnly
  | fullMatch
deriving DecidableEq, Repr

/-- A route table entry as `resolve_route` observes it: the result of
`route.matches(scope)` at the scope this entry is queried with, and —
for routes that carry a sub-application — the sub-application's route
table. `leaf` is a route without `app.router.routes`. -/
inductive RouteTree where
  | leaf (m : MatchRes)
  | node (m : MatchRes) (children : List RouteTree)

/-- The match result at the root of a route entry. -/
def RouteTree.res : RouteTree → MatchRes
  | RouteTree.leaf m => m
  | RouteTree.node m _ => m

/-- The inner `for route in routes` loop of `resolve_route`
(middlewares.py lines 31-39): return the first route whose match is
FULL; push the sub-table of each PARTIAL match that has one (newest
push at the head, matching Python `list.append`/`list.pop`); otherwise
hand back the accumulated pushes. -/
def scanLevel : List RouteTree → List (List RouteTree) →
    Sum (List (List RouteTree)) RouteTree
  | [], pushed => Sum.inl pushed
  | RouteTree.leaf m :: rest, pushed =>
    if m = MatchRes.fullMatch then Sum.inr (RouteTree.leaf m)
    else scanLevel rest pushed
  | RouteTree.node m children :: rest, pushed =>
    if m = MatchRes.fullMatch then Sum.inr (RouteTree.node m children)
    else if m = MatchRes.pathOnly then scanLevel rest (children :: pushed)
    else scanLevel rest pushed

mutual

/-- Size of a route entry, for termination of the stack walk. -/
def treeSize : RouteTree → Nat
  | RouteTree.leaf _ => 1
  | RouteTree.node _ children => 1 + lvlSize children

/-- Total size of one route table. -/
def lvlSize : List RouteTree → Nat
  | [] => 0
  | t :: ts => treeSize t + lvlSize ts

end

/-- Weighted size of the pending stack. -/
def stackSize : List (List RouteTree) → Nat
  | [] => 0
  | lvl :: rest => (2 * lvlSize lvl + 1) + stackSize rest

theorem stackSize_append (a b : List (List RouteTree)) :
    stackSize (a ++ b) = stackSize a + stackSize b := by
  induction a with
  | nil => simp [stackSize]
  | cons lvl rest ih => simp [stackSize, ih]; omega

theorem scanLevel_inl_size (l : List RouteTree) (acc pushed : List (List RouteTree))
    (h : scanLevel l acc = Sum.inl pushed) :
    stackSize pushed ≤ stackSize acc + 2 * lvlSize l := by
  induction l generalizing acc with
  | nil =>
    simp [scanLevel] at h
    subst h
    simp
  | cons t rest ih =>
    cases t with
    | leaf m =>
      by_cases hm : m = MatchRes.fullMatch
      · simp [scanLevel, hm] at h
      · simp [scanLevel, hm] at h
        have := ih acc h
        simp [lvlSize, treeSize]
        omega
    | node m children =>
      by_cases hm : m = MatchRes.fullMatch
      · simp [scanLevel, hm] at h
      · by_cases hp : m = MatchRes.pathOnly
        · simp [scanLevel, hm, hp] at h
          have := ih (children :: acc) h
          simp [stackSize, lvlSize, treeSize] at this ⊢
          omega
        · simp [scanLevel, hm, hp] at h
          have := ih acc h
          simp [lvlSize, treeSize]
          omega

/-- The `while stack` loop of `resolve_route` (middlewares.py lines
28-41): pop the most recent table, scan it, return on a full match,
else push the partial matches' sub-tables and continue; `None` when the
stack empties. -/
def resolveStack (stack : List (List RouteTree)) : Option RouteTree :=
  match stack with
  | [] => Option.none
  | lvl :: rest =>
    match h : scanLevel lvl [] with
    | Sum.inr r => Option.some r
    | Sum.inl pushed => resolveStack (pushed ++ rest)
termination_by stackSize stack
decreasing_by
  have hb := scanLevel_inl_size lvl [] pushed h
  simp [stackSize] at hb
  rw [stackSize_append]
  simp [stackSize]
  omega

/-- `resolve_route(app, path, method)` on a route table
(middlewares.py lines 16-41). -/
def resolve_route (routes : List RouteTree) : Option RouteTree :=
  resolveStack [routes]

mutual

/-- A full match is reachable from this entry: either its own match is
FULL, or its match is PARTIAL and some entry of its sub-table reaches a
full match (the walk only descends through PARTIAL matches). -/
def hasFullTree : RouteTree → Bool
  | RouteTree.leaf m => m == MatchRes.fullMatch
  | RouteTree.node m children =>
    m == MatchRes.fullMatch ||
      (m == MatchRes.pathOnly && hasFullLevel children)

/-- A full match is reachable from some entry of this table. -/
def hasFullLevel : List RouteTree → Bool
  | [] => false
  | t :: ts => hasFullTree t || hasFullLevel ts

end

/-- A full match is reachable from some table on the stack. -/
def hasFullStack : List (List RouteTree) → Bool
  | [] => false
  | lvl :: rest => hasFullLevel lvl || hasFullStack rest

mutual

/-- No route at any depth matches the request, even partially. -/
def allNoneTree : RouteTree → Bool
  | RouteTree.leaf m => m == MatchRes.noMatch
  | RouteTree.node m children => m == MatchRes.noMatch && allNoneLevel children

/-- No route of this table (or of any nested sub-table) matches. -/
def allNoneLevel : List RouteTree → Bool
  | [] => true
  | t :: ts => allNoneTree t && allNoneLevel ts

end

theorem hasFullStack_append (a b : List (List RouteTree)) :
    hasFullStack (a ++ b) = (hasFullStack a || hasFullStack b) := by
  induction a with
  | nil => simp [hasFullStack]
  | cons lvl rest ih => simp [hasFullStack, ih, Bool.or_assoc]

theorem scanLevel_inr_res (l : List RouteTree) (acc : List (List RouteTree))
    (r : RouteTree) (h : scanLevel l acc = Sum.inr r) :
    RouteTree.res r = MatchRes.fullMatch := by
  induction l generalizing acc with
  | nil => simp [scanLevel] at h
  | cons t rest ih =>
    cases t with
    | leaf m =>
      by_cases hm : m = MatchRes.fullMatch
      · simp [scanLevel, hm] at h
        subst h
        simp [RouteTree.res, hm]
      · simp [scanLevel, hm] at h
        exact ih acc h
    | node m children =>
      by_cases hm : m = MatchRes.fullMatch
      · simp [scanLevel, hm] at h
        subst h
        simp [RouteTree.res, hm]
      · by_cases hp : m = MatchRes.pathOnly
        · simp [scanLevel, hm, hp] at h
          exact ih (children :: acc) h
        · simp [scanLevel, hm, hp] at h
          exact ih acc h

theorem scanLevel_inr_hasFull (l : List RouteTree) (acc : List (List RouteTree))
    (r : RouteTree) (h : scanLevel l acc = Sum.inr r) :
    hasFullLevel l = true := by
  induction l generalizing acc with
  | nil => simp [scanLevel] at h
  | cons t rest ih =>
    cases t with
    | leaf m =>
      by_cases hm : m = MatchRes.fullMatch
      · simp [hasFullLevel, hasFullTree, hm]
      · simp [scanLevel, hm] at h
        simp [hasFullLevel, hasFullTree, ih acc h]
    | node m children =>
      by_cases hm : m = MatchRes.fullMatch
      · simp [hasFullLevel, hasFullTree, hm]
      · by_cases hp : m = MatchRes.pathOnly
        · simp [scanLevel, hm, hp] at h
          simp [hasFullLevel, ih (children :: acc) h]
        · simp [scanLevel, hm, hp] at h
          simp [hasFullLevel, ih acc h]

theorem scanLevel_inl_hasFull (l : List RouteTree)
    (acc pushed : List (List RouteTree))
    (h : scanLevel l acc = Sum.inl pushed) :
    hasFullStack pushed = (hasFullLevel l || hasFullStack acc) := by
  induction l generalizing acc with
  | nil =>
    simp [scanLevel] at h
    subst h
    simp [hasFullLevel]
  | cons t rest ih =>
    cases t with
    | leaf m =>
      by_cases hm : m = MatchRes.fullMatch
      · simp [scanLevel, hm] at h
      · simp [scanLevel, hm] at h
        rw [ih acc h]
        have hmb : (m == MatchRes.fullMatch) = false := by
          simp [hm]
        simp [hasFullLevel, hasFullTree, hmb]
    | node m children =>
      by_cases hm : m = MatchRes.fullMatch
      · simp [scanLevel, hm] at h
      · by_cases hp : m = MatchRes.pathOnly
        · simp [scanLevel, hm, hp] at h
          rw [ih (children :: acc) h]
          have hmb : (m == MatchRes.fullMatch) = false := by
            simp [hm]
          have hpb : (m == MatchRes.pathOnly) = true := by
            simp [hp]
          simp [hasFullStack, hasFullLevel, hasFullTree, hmb, hpb]
          cases hasFullLevel children <;> cases hasFullLevel rest <;>
            cases hasFullStack acc <;> simp
        · simp [scanLevel, hm, hp] at h
          rw [ih acc h]
          have hmb : (m == MatchRes.fullMatch) = false := by
            simp [hm]
          have hpb : (m == MatchRes.pathOnly) = false := by
            simp [hp]
          simp [hasFullLevel, hasFullTree, hmb, hpb]

/-- Soundness of the stack walk: a returned route has a FULL match at
its root. -/
theorem resolveStack_res (stack : List (List RouteTree)) (r : RouteTree)
    (h : resolveStack stack = Option.some r) :
    RouteTree.res r = MatchRes.fullMatch := by
  induction stack using resolveStack.induct with
  | case1 => simp [resolveStack] at h
  | case2 lvl rest r0 hscan =>
    rw [resolveStack, hscan] at h
    simp at h
    subst h
    exact scanLevel_inr_res lvl [] r0 hscan
  | case3 lvl rest pushed hscan ih =>
    rw [resolveStack, hscan] at h
    exact ih h

/-- Completeness of the stack walk: it returns a route exactly when a
full match is reachable from the stack. -/
theorem resolveStack_isSome (stack : List (List RouteTree)) :
    (resolveStack stack).isSome = hasFullStack stack := by
  induction stack using resolveStack.induct with
  | case1 => simp [resolveStack, hasFullStack]
  | case2 lvl rest r0 hscan =>
    rw [resolveStack, hscan]
    simp [hasFullStack, scanLevel_inr_hasFull lvl [] r0 hscan]
  | case3 lvl rest pushed hscan ih =>
    rw [resolveStack, hscan]
    rw [ih, hasFullStack_append, scanLevel_inl_hasFull lvl [] pushed hscan]
    simp [hasFullStack]

theorem hasFullLevel_of_mem (t : RouteTree) (routes : List RouteTree)
    (hmem : t ∈ routes) (hfull : hasFullTree t = true) :
    hasFullLevel routes = true := by
  induction routes with
  | nil => cases hmem
  | cons a rest ih =>
    cases hmem with
    | head => simp [hasFullLevel, hfull]
    | tail _ hm => simp [hasFullLevel, ih hm]

theorem allNone_not_hasFull (t : RouteTree) (h : allNoneTree t = true) :
    hasFullTree t = false := by
  cases t with
  | leaf m =>
    simp [allNoneTree] at h
    simp [hasFullTree, h]
  | node m children =>
    simp [allNoneTree] at h
    simp [hasFullTree, h.1]

theorem allNoneLevel_not_hasFull (routes : List RouteTree)
    (h : allNoneLevel routes = true) : hasFullLevel routes = false := by
  induction routes with
  | nil => simp [hasFullLevel]
  | cons t rest ih =>
    simp [allNoneLevel] at h
    simp [hasFullLevel, allNone_not_hasFull t h.1, ih h.2]

/-- What `FineTuningMiddleware.dispatch` does with the request
(middlewares.py lines 51-57). -/
inductive DispatchResult where
  | forwarded
  | passedThrough
deriving DecidableEq, Repr

/-- `dispatch`: forward into the embedded app when `resolve_route`
returns a route, else pass through to `call_next`. -/
def dispatch (routes : List RouteTree) : DispatchResult :=
  match resolve_route routes with
  | Option.some _ => DispatchResult.forwarded
  | Option.none => DispatchResult.passedThrough

theorem lookup_pop_none (store : Store) (id : String) :
    Store.lookup (Store.pop store id) id = Option.none := by
  induction store with
  | nil => rfl
  | cons p rest ih =>
    by_cases hp : p.1 == id
    · simpa [Store.pop, List.filter, hp] using ih
    · simp only [Store.pop, List.filter, hp] at ih ⊢
      simpa [Store.lookup, List.find?, hp] using ih

theorem lookup_set_some (store : Store) (id : String) (j j' : JobRecord)
    (hs : Store.lookup store id = Option.some j) :
    Store.lookup (Store.set store id j') id = Option.some j' := by
  induction store with
  | nil => simp [Store.lookup, List.find?] at hs
  | cons p rest ih =>
    by_cases hp : p.1 == id
    · simp [Store.set, Store.lookup, List.find?, hp]
    · simp only [Store.lookup, List.find?, hp] at hs
      simp only [Store.set, List.map]
      rw [if_neg (by simp [hp])]
      simp only [Store.lookup, List.find?, hp] at ih ⊢
      exact ih hs

/-- A fine-tuning job used by the concrete witnesses. -/
def demoJob : JobRecord :=
  { model := "base-model"
    training_file := "file-1"
    suffix := Option.none
    status := "running"
    created_at := 10
    finished_at := Option.none
    fine_tuned_model := Option.none
    error := Option.none }

/-- A job already in the terminal status `succeeded`, with its finish
timestamp recorded at time 100. -/
def doneJob : JobRecord :=
  { model := "base-model"
    training_file := "file-1"
    suffix := Option.none
    status := "succeeded"
    created_at := 10
    finished_at := Option.some 100
    fine_tuned_model := Option.none
    error := Option.none }

/-- C1: counterexample — the claim lists `RUNNING` in the mapper's
domain with value `running`, but the source `STATUS_MAP` dict has no
`RUNNING` key, so `STATUS_MAP["RUNNING"]` raises `KeyError` instead of
yielding `running`. -/
theorem c1_running_not_in_domain :
    statusMapLookup "RUNNING" = Option.none ∧
    statusMapLookup "RUNNING" ≠ Option.some "running" := by
  refine ⟨rfl, ?_⟩
  intro h
  simp [statusMapLookup, STATUS_MAP, List.find?] at h

/-- C1 (amended): the mapper's domain is exactly
`{IN_QUEUE, IN_PROGRESS, COMPLETED, CANCELLED, FAILED, TIMED_OUT}` —
without `RUNNING` — and on that domain it deterministically maps
IN_QUEUE to queued, IN_PROGRESS to running, COMPLETED to succeeded,
CANCELLED to cancelled, FAILED to failed and TIMED_OUT to failed,
while `RUNNING` fails like any unrecognized value. -/
theorem c1_status_map_correct :
    statusMapLookup "IN_QUEUE" = Option.some "queued" ∧
    statusMapLookup "IN_PROGRESS" = Option.some "running" ∧
    statusMapLookup "COMPLETED" = Option.some "succeeded" ∧
    statusMapLookup "CANCELLED" = Option.some "cancelled" ∧
    statusMapLookup "FAILED" = Option.some "failed" ∧
    statusMapLookup "TIMED_OUT" = Option.some "failed" ∧
    statusMapLookup "RUNNING" = Option.none :=
  ⟨rfl, rfl, rfl, rfl, rfl, rfl, rfl⟩

/-- C5: for every remote status string outside the seven-element set
named by the claim, the mapper is undefined (the dict subscript raises
`KeyError`) and `retrieve_job` propagates that `KeyError` without
recording any default status: the handler errors and the store is
unchanged. -/
theorem c5_unknown_status_fails_closed (s : String)
    (h : s ∉ ["IN_QUEUE", "RUNNING", "IN_PROGRESS", "COMPLETED",
              "CANCELLED", "FAILED", "TIMED_OUT"]) :
    statusMapLookup s = Option.none ∧
    ∀ (store : Store) (id : String) (j : JobRecord) (err : Option String)
      (now : Nat), Store.lookup store id = Option.some j →
      retrieve_job store id (RemoteStatusResp.ok s err) now =
        (Except.error (PyError.keyError s), store) := by
  simp only [List.mem_cons, List.not_mem_nil, or_false, not_or] at h
  obtain ⟨h1, _, h3, h4, h5, h6, h7⟩ := h
  have hf : STATUS_MAP.find? (fun p => p.1 == s) = Option.none := by
    apply List.find?_eq_none.mpr
    intro p hp
    simp only [STATUS_MAP, List.mem_cons, List.not_mem_nil, or_false] at hp
    rcases hp with hp | hp | hp | hp | hp | hp <;>
      · subst hp
        simp only [beq_iff_eq]
        intro he
        subst he
        simp_all
  have hl : statusMapLookup s = Option.none := by
    simp [statusMapLookup, hf]
  refine ⟨hl, ?_⟩
  intro store id j err now hs
  simp [retrieve_job, hs, hl]

/-- C5 witness: the concrete remote status `"UNKNOWN_STATE"` is outside
the mapper's domain; mapping fails and `retrieve_job` errors with a
`KeyError`, leaving the store unchanged. -/
theorem c5_witness :
    ("UNKNOWN_STATE" : String) ∉
      ["IN_QUEUE", "RUNNING", "IN_PROGRESS", "COMPLETED",
       "CANCELLED", "FAILED", "TIMED_OUT"] ∧
    statusMapLookup "UNKNOWN_STATE" = Option.none ∧
    retrieve_job [("job-1", demoJob)] "job-1"
        (RemoteStatusResp.ok "UNKNOWN_STATE" Option.none) 7 =
      (Except.error (PyError.keyError "UNKNOWN_STATE"), [("job-1", demoJob)]) := by
  have h := c5_unknown_status_fails_closed "UNKNOWN_STATE" (by decide)
  exact ⟨by decide, h.1,
    h.2 [("job-1", demoJob)] "job-1" demoJob Option.none 7 rfl⟩

/-- C2: counterexample — a job already recorded as `succeeded` with
`finished_at = 100` is retrieved again at time 200 while the remote
still reports `COMPLETED`; the handler overwrites `finished_at` with
200, so a repeated retrieval of a job already in a terminal status does
not leave `finished_at` unchanged. -/
theorem c2_finished_at_rewritten :
    retrieve_job [("j1", doneJob)] "j1"
        (RemoteStatusResp.ok "COMPLETED" Option.none) 200 =
      (Except.ok { doneJob with finished_at := Option.some 200 },
       [("j1", { doneJob with finished_at := Option.some 200 })]) ∧
    doneJob.finished_at = Option.some 100 ∧
    ({ doneJob with finished_at := Option.some 200 }).finished_at ≠
      doneJob.finished_at := by
  refine ⟨rfl, rfl, ?_⟩
  simp [doneJob]

/-- C2 (amended): on every successful retrieval, `finished_at` is
overwritten with the current time whenever the mapped status is
terminal (`succeeded`, `failed` or `cancelled`) — including repeated
retrievals of a job already terminal — and is left unchanged exactly
when the mapped status is non-terminal. -/
theorem c2_finished_at_stamped_on_terminal
    (store store' : Store) (id : String) (j j' : JobRecord) (s : String)
    (err : Option String) (now : Nat)
    (hs : Store.lookup store id = Option.some j)
    (h : retrieve_job store id (RemoteStatusResp.ok s err) now =
      (Except.ok j', store')) :
    (j'.status = "succeeded" ∨ j'.status = "failed" ∨ j'.status = "cancelled" →
      j'.finished_at = Option.some now) ∧
    (¬(j'.status = "succeeded" ∨ j'.status = "failed" ∨ j'.status = "cancelled") →
      j'.finished_at = j.finished_at) := by
  simp only [retrieve_job, hs] at h
  cases hmap : statusMapLookup s with
  | none => rw [hmap] at h; simp at h
  | some mapped =>
    rw [hmap] at h
    simp only [Prod.mk.injEq, Except.ok.injEq] at h
    obtain ⟨hj, _⟩ := h
    subst hj
    cases err with
    | none =>
      by_cases hterm : mapped = "succeeded" ∨ mapped = "failed" ∨ mapped = "cancelled" <;>
        simp [hterm]
    | some msg =>
      by_cases hmsg : msg = "" <;>
        by_cases hterm : mapped = "succeeded" ∨ mapped = "failed" ∨ mapped = "cancelled" <;>
          simp [hmsg, hterm]

/-- C2 witness: applying the amended theorem to a retrieval of the
already-terminal `doneJob` at time 200 shows `finished_at` becomes 200. -/
theorem c2_witness :
    ({ doneJob with finished_at := Option.some 200 } : JobRecord).finished_at =
      Option.some 200 := by
  have h := c2_finished_at_stamped_on_terminal
    [("j1", doneJob)] [("j1", { doneJob with finished_at := Option.some 200 })]
    "j1" doneJob { doneJob with finished_at := Option.some 200 }
    "COMPLETED" Option.none 200 rfl rfl
  exact h.1 (Or.inl rfl)

/-- The daemon state after one successful poll recorded `running`. -/
def c3State : DaemonState :=
  ⟨Option.some demoJob, [("job-1", demoJob)]⟩

/-- C3: evaluation at the failing input — with a previous poll having
recorded status `running`, a non-404 poll failure (HTTP 500) does not
terminate the daemon: the `except HTTPException` clause only returns on
404, so control falls through to the status checks with the stale local
`job` value and the loop schedules a further polling iteration
(`DaemonOutcome.continues`), the recorded status left unchanged. The
claim (and spec) say the daemon terminates here. -/
theorem c3_non404_poll_error_keeps_polling :
    daemonIter "job-1" (RemoteStatusResp.httpError 500 "server error") 50 c3State =
      DaemonOutcome.continues c3State ∧
    (∀ store : Store, DaemonOutcome.continues c3State ≠ DaemonOutcome.exited store) := by
  constructor
  · rfl
  · intro store hcon
    cases hcon

/-- The artifact-stage effect outcomes where the staging directory and
the S3 download succeed but the engine's `load_lora_adapter` call
fails. -/
def c4Env : ArtifactEnv :=
  { mkdtempResult := Except.ok "/tmp/ft.abc123".data
    downloadResult := Except.ok ()
    loadResult := Except.error "500 from load_lora_adapter" }

/-- C4: counterexample — the daemon assigns `job.fine_tuned_model`
before posting `load_lora_adapter`, so when that notification fails the
identifier is already set: the claim that it "remains unset" on a
failed load is false. -/
theorem c4_set_despite_failed_load :
    doneJob.fine_tuned_model = Option.none ∧
    c4Env.loadResult = Except.error "500 from load_lora_adapter" ∧
    Store.lookup (artifactStage c4Env [("job-1", doneJob)] "job-1") "job-1" =
      Option.some { doneJob with fine_tuned_model := Option.some "ft:abc123" } := by
  refine ⟨rfl, rfl, ?_⟩
  rfl

/-- C4 (amended): `fine_tuned_model` is assigned exactly once, after a
successful staging-directory allocation and object-store fetch and
before the engine-load notification: if allocation or the fetch fails
it remains unset (the store is unchanged), but a failing
`load_lora_adapter` call leaves the already-made assignment in place. -/
theorem c4_fine_tuned_model_set_on_fetch (env : ArtifactEnv) (store : Store)
    (id : String) (j : JobRecord)
    (hs : Store.lookup store id = Option.some j) :
    (∀ d, env.mkdtempResult = Except.ok d → env.downloadResult = Except.ok () →
      artifactStage env store id =
        Store.set store id
          { j with fine_tuned_model :=
              Option.some (String.mk (derive_model_name d)) }) ∧
    (∀ e, env.mkdtempResult = Except.error e → artifactStage env store id = store) ∧
    (∀ e, env.downloadResult = Except.error e → artifactStage env store id = store) := by
  refine ⟨?_, ?_, ?_⟩
  · intro d hmk hdl
    simp only [artifactStage, hs, hmk, hdl]
    cases hload : env.loadResult <;> simp [hload]
  · intro e hmk
    simp [artifactStage, hs, hmk]
  · intro e hdl
    cases hmk : env.mkdtempResult with
    | error e' => simp [artifactStage, hs, hmk]
    | ok d => simp [artifactStage, hs, hmk, hdl]

/-- C4 witness: the amended theorem applied to `c4Env` (failing load)
on a store holding `doneJob`; the fetch succeeded, so the store gains
the derived identifier `ft:abc123` even though the load failed. -/
theorem c4_witness :
    artifactStage c4Env [("job-1", doneJob)] "job-1" =
      Store.set [("job-1", doneJob)] "job-1"
        { doneJob with fine_tuned_model :=
            Option.some (String.mk (derive_model_name "/tmp/ft.abc123".data)) } :=
  (c4_fine_tuned_model_set_on_fetch c4Env [("job-1", doneJob)] "job-1" doneJob
    rfl).1 "/tmp/ft.abc123".data rfl rfl

/-- C6: a remote 404 on poll deletes the local record (`retrieve_job`
pops it and raises 404, the daemon pops again and terminates with
`DaemonOutcome.exited`), and any later `retrieve_job` or `cancel_job`
on a store without that id fails with HTTP 404. -/
theorem c6_remote_404_deletes_record
    (store : Store) (id : String) (j : JobRecord) (now : Nat)
    (hs : Store.lookup store id = Option.some j) :
    retrieve_job store id RemoteStatusResp.notFound now =
      (Except.error (PyError.http ⟨404, "Job not found"⟩), Store.pop store id) ∧
    (∀ s : DaemonState, s.store = store →
      daemonIter id RemoteStatusResp.notFound now s =
        DaemonOutcome.exited (Store.pop (Store.pop store id) id)) ∧
    Store.lookup (Store.pop store id) id = Option.none ∧
    (∀ store2 : Store, Store.lookup store2 id = Option.none →
      (∀ (resp : RemoteStatusResp) (now2 : Nat),
        retrieve_job store2 id resp now2 =
          (Except.error (PyError.http ⟨404, "Job not found"⟩), store2)) ∧
      (∀ resp : RemoteCancelResp,
        cancel_job store2 id resp = Except.error ⟨404, "Job not found"⟩)) := by
  refine ⟨?_, ?_, lookup_pop_none store id, ?_⟩
  · simp [retrieve_job, hs]
  · intro s hstore
    subst hstore
    simp [daemonIter, retrieve_job, hs]
  · intro store2 h2
    exact ⟨fun resp now2 => by simp [retrieve_job, h2],
           fun resp => by simp [cancel_job, h2]⟩

/-- C6 witness: on the concrete store holding `abc123`, a 404 poll
pops the record, the daemon exits, and the subsequent retrieval and
cancel of `abc123` both fail with 404. -/
theorem c6_witness :
    retrieve_job [("abc123", demoJob)] "abc123" RemoteStatusResp.notFound 9 =
      (Except.error (PyError.http ⟨404, "Job not found"⟩), []) ∧
    daemonIter "abc123" RemoteStatusResp.notFound 9
        ⟨Option.none, [("abc123", demoJob)]⟩ = DaemonOutcome.exited [] ∧
    retrieve_job [] "abc123" (RemoteStatusResp.ok "COMPLETED" Option.none) 11 =
      (Except.error (PyError.http ⟨404, "Job not found"⟩), []) ∧
    cancel_job [] "abc123" RemoteCancelResp.ok =
      Except.error ⟨404, "Job not found"⟩ := by
  have h := c6_remote_404_deletes_record [("abc123", demoJob)] "abc123" demoJob 9 rfl
  have h4 := h.2.2.2 [] rfl
  exact ⟨h.1, h.2.1 ⟨Option.none, [("abc123", demoJob)]⟩ rfl,
         h4.1 (RemoteStatusResp.ok "COMPLETED" Option.none) 11,
         h4.2 RemoteCancelResp.ok⟩

/-- C7: whatever the effect outcomes inside the artifact stage — a
failing staging-directory allocation, a failing fetch, or a failing
engine-load call — the stage is total (the `except Exception` swallows
everything, so nothing propagates out of the daemon) and the job's
record keeps its `succeeded` status, its finish timestamp and its
error field. -/
theorem c7_artifact_stage_preserves_status (env : ArtifactEnv) (store : Store)
    (id : String) (j : JobRecord)
    (hs : Store.lookup store id = Option.some j)
    (hsucc : j.status = "succeeded") :
    ∃ j', Store.lookup (artifactStage env store id) id = Option.some j' ∧
      j'.status = "succeeded" ∧ j'.finished_at = j.finished_at ∧
      j'.error = j.error := by
  cases hmk : env.mkdtempResult with
  | error e =>
    refine ⟨j, ?_, hsucc, rfl, rfl⟩
    simp [artifactStage, hs, hmk]
  | ok d =>
    cases hdl : env.downloadResult with
    | error e =>
      refine ⟨j, ?_, hsucc, rfl, rfl⟩
      simp [artifactStage, hs, hmk, hdl]
    | ok u =>
      have hset : Store.lookup (artifactStage env store id) id = Option.some { j with fine_tuned_model := Option.some (String.mk (derive_model_name d)) } := by
        simp only [artifactStage, hs, hmk, hdl]
        cases hload : env.loadResult with
        | error e => exact lookup_set_some store id j _ hs
        | ok u' => exact lookup_set_some store id j _ hs
      exact ⟨_, hset, hsucc, rfl, rfl⟩

/-- Effect outcomes where already the staging-directory allocation
fails. -/
def c7Env : ArtifactEnv :=
  { mkdtempResult := Except.error "mkdtemp failed"
    downloadResult := Except.ok ()
    loadResult := Except.ok () }

/-- C7 witness: with a failing staging-directory allocation, the store
still holds the job with status `succeeded` and untouched finish
timestamp and error field. -/
theorem c7_witness :
    ∃ j', Store.lookup (artifactStage c7Env [("job-1", doneJob)] "job-1")
        "job-1" = Option.some j' ∧
      j'.status = "succeeded" ∧ j'.finished_at = doneJob.finished_at ∧
      j'.error = doneJob.error :=
  c7_artifact_stage_preserves_status c7Env [("job-1", doneJob)] "job-1"
    doneJob rfl rfl

/-- C8: if the embedded app completes without emitting a
response-start event, `_forward_to_app` fails on its assertion and
returns no response at all (in particular no default 200); when a
response-start event was emitted, it returns the buffered response and
the assertion does not fire. -/
theorem c8_response_start_required (msgs : List ASGIMessage) :
    (responseStarted msgs = false →
      forward_to_app msgs = Except.error "Response was not started" ∧
      ∀ r : BufferedResponse, forward_to_app msgs ≠ Except.ok r) ∧
    (responseStarted msgs = true →
      forward_to_app msgs = Except.ok (buildResponse msgs)) := by
  constructor
  · intro hns
    constructor
    · simp [forward_to_app, hns]
    · intro r hok
      simp [forward_to_app, hns] at hok
  · intro hst
    simp [forward_to_app, hst]

/-- C8 witness: a body-only event queue makes forwarding fail with the
assertion message, while a queue with a start event yields the buffered
response (status 204 here, not a default 200). -/
theorem c8_witness :
    forward_to_app [ASGIMessage.body [104, 105]] =
      Except.error "Response was not started" ∧
    forward_to_app [ASGIMessage.start 204 [("x-a", "b")], ASGIMessage.body [104]] =
      Except.ok ⟨204, [("x-a", "b")], [104]⟩ := by
  constructor
  · exact ((c8_response_start_required [ASGIMessage.body [104, 105]]).1 rfl).1
  · exact (c8_response_start_required
      [ASGIMessage.start 204 [("x-a", "b")], ASGIMessage.body [104]]).2 rfl

/-- C9: every route returned by `resolve_route` is a full (path+method)
match; if the table contains a top-level partial (path-only) match from
which a full match is reachable in its nested sub-tables, resolution
returns a full match rather than stopping at the partial one; and if no
route at any depth matches the request, resolution returns no route and
`dispatch` passes the request through. -/
theorem c9_depth_first_full_match (routes : List RouteTree) :
    (∀ r, resolve_route routes = Option.some r →
      RouteTree.res r = MatchRes.fullMatch) ∧
    ((∃ t ∈ routes, RouteTree.res t = MatchRes.pathOnly ∧ hasFullTree t = true) →
      ∃ r, resolve_route routes = Option.some r ∧
        RouteTree.res r = MatchRes.fullMatch) ∧
    (allNoneLevel routes = true →
      resolve_route routes = Option.none ∧
      dispatch routes = DispatchResult.passedThrough) := by
  have hnone : allNoneLevel routes = true → resolve_route routes = Option.none := by
    intro hall
    have hfull : hasFullStack [routes] = false := by
      simp [hasFullStack, allNoneLevel_not_hasFull routes hall]
    have := resolveStack_isSome [routes]
    rw [hfull] at this
    cases hres : resolveStack [routes] with
    | none => exact hres
    | some r => rw [hres] at this; simp at this
  refine ⟨?_, ?_, ?_⟩
  · intro r hr
    exact resolveStack_res [routes] r hr
  · rintro ⟨t, hmem, -, hfull⟩
    have hlvl : hasFullLevel routes = true := hasFullLevel_of_mem t routes hmem hfull
    have hstk : hasFullStack [routes] = true := by simp [hasFullStack, hlvl]
    have := resolveStack_isSome [routes]
    rw [hstk] at this
    cases hres : resolveStack [routes] with
    | none => rw [hres] at this; simp at this
    | some r => exact ⟨r, hres, resolveStack_res [routes] r hres⟩
  · intro hall
    have h0 := hnone hall
    exact ⟨h0, by simp [dispatch, h0]⟩

/-- A route table with a partial match at the top level whose nested
sub-tables contain a full match three levels deep. -/
def deepRoutes : List RouteTree :=
  [RouteTree.leaf MatchRes.noMatch,
   RouteTree.node MatchRes.pathOnly
     [RouteTree.node MatchRes.pathOnly
       [RouteTree.node MatchRes.pathOnly
         [RouteTree.leaf MatchRes.fullMatch]]]]

/-- A route table in which no route matches at any depth. -/
def noMatchRoutes : List RouteTree :=
  [RouteTree.leaf MatchRes.noMatch,
   RouteTree.node MatchRes.noMatch [RouteTree.leaf MatchRes.noMatch]]

/-- C9 witness: on the three-level nested table, resolution returns a
full match; on the all-miss table it returns no route and the request
passes through. -/
theorem c9_witness :
    (∃ r, resolve_route deepRoutes = Option.some r ∧
      RouteTree.res r = MatchRes.fullMatch) ∧
    resolve_route noMatchRoutes = Option.none ∧
    dispatch noMatchRoutes = DispatchResult.passedThrough := by
  have hdeep := (c9_depth_first_full_match deepRoutes).2.1
  have hmiss := (c9_depth_first_full_match noMatchRoutes).2.2
  refine ⟨hdeep ⟨RouteTree.node MatchRes.pathOnly
      [RouteTree.node MatchRes.pathOnly
        [RouteTree.node MatchRes.pathOnly
          [RouteTree.leaf MatchRes.fullMatch]]], ?_, rfl, ?_⟩, ?_⟩
  · simp [deepRoutes]
  · simp [hasFullTree, hasFullLevel]
  · exact hmiss (by simp [noMatchRoutes, allNoneLevel, allNoneTree])

/-- C10: the identifier substitution round-trips — on a staging
directory whose base name contains no `:`, rewriting every `.` to `:`
(the daemon's `derive_model_name`) and then every `:` back to `.`
(`push_model_to_hub`'s `adapter_dir_name`) recovers the base name, so
`push_model_to_hub` resolves exactly the directory the daemon fetched
into. -/
theorem c10_identifier_roundtrip (tempdir : List Char)
    (h : ':' ∉ basename tempdir) :
    adapter_dir_name (derive_model_name tempdir) = basename tempdir := by
  unfold adapter_dir_name derive_model_name pyReplaceChar
  rw [List.map_map]
  have hid : ∀ c ∈ basename tempdir,
      ((fun c => if c = ':' then '.' else c) ∘
        fun c => if c = '.' then ':' else c) c = c := by
    intro c hc
    by_cases hdot : c = '.'
    · simp [hdot]
    · have hcol : c ≠ ':' := fun he => h (he ▸ hc)
      simp [hdot, hcol]
  rw [List.map_congr_left hid]
  simp

/-- C10 witness: the staging path `/tmp/ft.suffix.x1y2` (whose base
name `ft.suffix.x1y2` has no `:`) round-trips: the derived model id
`ft:suffix:x1y2` maps back to the fetched directory name. -/
theorem c10_witness :
    (':' ∉ basename "/tmp/ft.suffix.x1y2".data) ∧
    adapter_dir_name (derive_model_name "/tmp/ft.suffix.x1y2".data) =
      basename "/tmp/ft.suffix.x1y2".data :=
  ⟨by decide, c10_identifier_roundtrip "/tmp/ft.suffix.x1y2".data (by decide)⟩

end VFM
